import Mathlib

/-!
Verification of the command execution and undo engine in
src/VanillaPatterns/DesignPatterns/CommandPattern.ts.

The TypeScript code is embedded shallowly:

* The receivers Light and TV only print to the console; their observable
  on/off state is the state reported by the most recent console line for
  that device.  We track both the console output (a list of strings, in
  print order) and the two derived booleans.
* Commands are first-class values.  Leaf commands (LightOnCommand,
  LightOffCommand, TVOnCommand, TVOffCommand) are stateless.  A
  MacroCommand owns a mutable array of commands; since `undo()` mutates
  that array in place via Array.prototype.reverse, macro instances are
  modelled by references (natural-number ids) into a store holding each
  macro instance's current command array.  CmdRef equality is instance
  identity for the purposes of the claims.
* RemoteControl holds the registered command list and the nullable
  undoCommand slot.
* JavaScript dynamic faults are modelled with Except: pressButton with a
  negative index passes the source's guard `index < this.commands.length`,
  reads `this.commands[index]` (undefined) and throws a TypeError on the
  `.execute()` call; this is `Except.error JsError.typeError`.
* Recursion through the macro store is fuel-bounded; every claim holds
  for all sufficiently large fuel (depth-one macros need fuel 2).
-/

/-- Reference to a command instance.  The four leaf command classes are
each instantiated once per receiver in the client code and are stateless,
so a leaf reference is the command itself; `mcr id` is a reference to the
MacroCommand instance with store id `id`. -/
inductive CmdRef where
  | lightOn
  | lightOff
  | tvOn
  | tvOff
  | mcr (id : Nat)
  deriving DecidableEq

/-- Whole-system state: the two receivers (observable on/off state plus
the console output they produce), the heap of MacroCommand instances
(store index = instance id, entry = the instance's current command
array), and the RemoteControl fields `commands` and `undoCommand`. -/
structure SysState where
  lightIsOn : Bool
  tvIsOn : Bool
  output : List String
  store : List (List CmdRef)
  commands : List CmdRef
  undoCommand : Option CmdRef

/-- Receiver method Light.on: prints "Light is ON"; the light's observable
state becomes ON. -/
def Light_on (s : SysState) : SysState :=
  { s with lightIsOn := true, output := s.output ++ ["Light is ON"] }

/-- Receiver method Light.off: prints "Light is OFF". -/
def Light_off (s : SysState) : SysState :=
  { s with lightIsOn := false, output := s.output ++ ["Light is OFF"] }

/-- Receiver method TV.on: prints "TV is ON". -/
def TV_on (s : SysState) : SysState :=
  { s with tvIsOn := true, output := s.output ++ ["TV is ON"] }

/-- Receiver method TV.off: prints "TV is OFF". -/
def TV_off (s : SysState) : SysState :=
  { s with tvIsOn := false, output := s.output ++ ["TV is OFF"] }

/-- Command.execute.  Leaves delegate to their receiver action; a
MacroCommand executes its current command array in order
(`this.commands.forEach((command) => command.execute())`).  Fuel bounds
the recursion through the store; out of fuel a macro does nothing. -/
def execCmd : Nat → CmdRef → SysState → SysState
  | _, CmdRef.lightOn, s => Light_on s
  | _, CmdRef.lightOff, s => Light_off s
  | _, CmdRef.tvOn, s => TV_on s
  | _, CmdRef.tvOff, s => TV_off s
  | 0, CmdRef.mcr _, s => s
  | fuel + 1, CmdRef.mcr id, s =>
      ((s.store.get? id).getD []).foldl (fun t c => execCmd fuel c t) s

/-- Command.undo.  Leaves delegate to the inverse receiver action.  A
MacroCommand runs `this.commands.reverse().forEach((command) =>
command.undo())`: Array.prototype.reverse reverses the stored array IN
PLACE and returns the same array, so the store entry is updated to the
reversed list before the members' undo methods run over it. -/
def undoCmd : Nat → CmdRef → SysState → SysState
  | _, CmdRef.lightOn, s => Light_off s
  | _, CmdRef.lightOff, s => Light_on s
  | _, CmdRef.tvOn, s => TV_off s
  | _, CmdRef.tvOff, s => TV_on s
  | 0, CmdRef.mcr _, s => s
  | fuel + 1, CmdRef.mcr id, s =>
      (((s.store.get? id).getD []).reverse).foldl (fun t c => undoCmd fuel c t)
        { s with store := s.store.set id (((s.store.get? id).getD []).reverse) }

/-- Models `new MacroCommand(cs)`: allocates a fresh instance whose store
entry holds the given command array, returning the reference to it. -/
def mkComposite (cs : List CmdRef) (s : SysState) : CmdRef × SysState :=
  (CmdRef.mcr s.store.length, { s with store := s.store ++ [cs] })

/-- RemoteControl.setCommand: `this.commands.push(command)`. -/
def setCommand (c : CmdRef) (s : SysState) : SysState :=
  { s with commands := s.commands ++ [c] }

/-- The value RemoteControl.setCommand returns to its caller: the TS
signature is `setCommand(command: Command): void`, so no index (nor any
other value) is returned.  Modelled as an Option Nat that is always none,
to be compared with the spec's `register(command) -> index`. -/
def setCommandReturn (_ : CmdRef) (_ : SysState) : Option Nat :=
  none

/-- JavaScript runtime fault raised by calling a method on undefined. -/
inductive JsError where
  | typeError
  deriving DecidableEq

/-- JavaScript array read `arr[i]`: undefined (none) for a negative or
out-of-range index. -/
def elemAt (l : List CmdRef) (i : Int) : Option CmdRef :=
  if 0 ≤ i then l.get? i.toNat else none

/-- RemoteControl.pressButton.  The source guard is only
`index < this.commands.length`; when it passes, `this.commands[index]` is
read and `.execute()` is called on it — for a negative index that value
is undefined and a TypeError is thrown.  Otherwise the command executes
and is stored in the undo slot.  When the guard fails, "Command not
found" is printed and nothing else happens. -/
def pressButton (fuel : Nat) (i : Int) (s : SysState) : Except JsError SysState :=
  if i < (s.commands.length : Int) then
    match elemAt s.commands i with
    | some c => Except.ok { execCmd fuel c s with undoCommand := some c }
    | none => Except.error JsError.typeError
  else
    Except.ok { s with output := s.output ++ ["Command not found"] }

/-- RemoteControl.pressUndo: if the undo slot holds a command, call its
undo and clear the slot; otherwise print "No command to undo". -/
def pressUndo (fuel : Nat) (s : SysState) : SysState :=
  match s.undoCommand with
  | some c => { undoCmd fuel c s with undoCommand := none }
  | none => { s with output := s.output ++ ["No command to undo"] }

/-- Initial state: fresh RemoteControl, no macro instances, nothing
printed, both devices observably off. -/
def initState : SysState :=
  { lightIsOn := false, tvIsOn := false, output := [], store := [],
    commands := [], undoCommand := none }

/-- A button press or an undo press, for reasoning about arbitrary
interaction sequences with the RemoteControl. -/
inductive Op where
  | press (i : Int)
  | undoBtn

/-- Run one interaction. -/
def runOp (fuel : Nat) (s : SysState) : Op → Except JsError SysState
  | Op.press i => pressButton fuel i s
  | Op.undoBtn => Except.ok (pressUndo fuel s)

/-- Run a sequence of interactions; a thrown TypeError aborts the rest. -/
def runOps (fuel : Nat) : List Op → SysState → Except JsError SysState
  | [], s => Except.ok s
  | op :: ops, s =>
      match runOp fuel s op with
      | Except.ok t => runOps fuel ops t
      | Except.error e => Except.error e

/-- True for the four stateless leaf commands, false for macro refs. -/
def CmdRef.isLeaf : CmdRef → Bool
  | CmdRef.mcr _ => false
  | _ => true

/-- Console line printed by a leaf command's execute. -/
def execMsg : CmdRef → String
  | CmdRef.lightOn => "Light is ON"
  | CmdRef.lightOff => "Light is OFF"
  | CmdRef.tvOn => "TV is ON"
  | CmdRef.tvOff => "TV is OFF"
  | CmdRef.mcr _ => ""

/-- Console line printed by a leaf command's undo. -/
def undoMsg : CmdRef → String
  | CmdRef.lightOn => "Light is OFF"
  | CmdRef.lightOff => "Light is ON"
  | CmdRef.tvOn => "TV is OFF"
  | CmdRef.tvOff => "TV is ON"
  | CmdRef.mcr _ => ""

/-- Whether a console line is a receiver (device) action, as opposed to a
RemoteControl status report. -/
def isDeviceMsg (m : String) : Bool :=
  m == "Light is ON" || m == "Light is OFF" || m == "TV is ON" || m == "TV is OFF"

/-- Number of receiver actions recorded in a console output. -/
def deviceActions (out : List String) : Nat :=
  (out.filter isDeviceMsg).length

/-! List helpers, proved from first principles to keep the development
self-contained. -/

theorem get?_append_sing {α : Type} : ∀ (l : List α) (a : α),
    (l ++ [a]).get? l.length = some a
  | [], _ => rfl
  | _ :: l, a => get?_append_sing l a

theorem get?_append_add {α : Type} : ∀ (l₁ l₂ : List α) (n : Nat),
    (l₁ ++ l₂).get? (n + l₁.length) = l₂.get? n
  | [], _, _ => rfl
  | _ :: l₁, l₂, n => get?_append_add l₁ l₂ n

theorem get?_lt_length {α : Type} : ∀ (l : List α) (n : Nat) (a : α),
    l.get? n = some a → n < l.length
  | [], _, _, h => Option.noConfusion h
  | _ :: _, 0, _, _ => Nat.succ_pos _
  | _ :: l, n + 1, a, h => Nat.succ_lt_succ (get?_lt_length l n a h)

theorem set_of_get? {α : Type} : ∀ (l : List α) (n : Nat) (a : α),
    l.get? n = some a → l.set n a = l
  | [], _, _, h => Option.noConfusion h
  | _ :: l, 0, _, h => congrArg (fun x => x :: l) (Option.some.inj h).symm
  | b :: l, n + 1, a, h => congrArg (fun x => b :: x) (set_of_get? l n a h)

theorem get?_set_self {α : Type} : ∀ (l : List α) (n : Nat) (a : α),
    n < l.length → (l.set n a).get? n = some a
  | [], n, _, h => absurd h (Nat.not_lt_zero n)
  | _ :: _, 0, _, _ => rfl
  | _ :: l, n + 1, a, h => get?_set_self l n a (Nat.lt_of_succ_lt_succ h)

/-! Frame lemmas: which SysState components a command run can touch. -/

theorem foldl_pres {α : Type} (p : SysState → α) (g : SysState → CmdRef → SysState)
    (h : ∀ s c, p (g s c) = p s) :
    ∀ (l : List CmdRef) (s : SysState), p (l.foldl g s) = p s
  | [], _ => rfl
  | c :: l, s => by
      rw [List.foldl_cons, foldl_pres p g h l (g s c), h]

theorem execCmd_commands : ∀ (fuel : Nat) (c : CmdRef) (s : SysState),
    (execCmd fuel c s).commands = s.commands := by
  intro fuel
  induction fuel with
  | zero => intro c s; cases c <;> rfl
  | succ n ih =>
      intro c s
      cases c with
      | mcr id =>
          exact foldl_pres (fun t => t.commands) (fun t c => execCmd n c t)
            (fun t c => ih c t) _ s
      | lightOn => rfl
      | lightOff => rfl
      | tvOn => rfl
      | tvOff => rfl

theorem execCmd_undoCommand : ∀ (fuel : Nat) (c : CmdRef) (s : SysState),
    (execCmd fuel c s).undoCommand = s.undoCommand := by
  intro fuel
  induction fuel with
  | zero => intro c s; cases c <;> rfl
  | succ n ih =>
      intro c s
      cases c with
      | mcr id =>
          exact foldl_pres (fun t => t.undoCommand) (fun t c => execCmd n c t)
            (fun t c => ih c t) _ s
      | lightOn => rfl
      | lightOff => rfl
      | tvOn => rfl
      | tvOff => rfl

theorem execCmd_store : ∀ (fuel : Nat) (c : CmdRef) (s : SysState),
    (execCmd fuel c s).store = s.store := by
  intro fuel
  induction fuel with
  | zero => intro c s; cases c <;> rfl
  | succ n ih =>
      intro c s
      cases c with
      | mcr id =>
          exact foldl_pres (fun t => t.store) (fun t c => execCmd n c t)
            (fun t c => ih c t) _ s
      | lightOn => rfl
      | lightOff => rfl
      | tvOn => rfl
      | tvOff => rfl

theorem undoCmd_commands : ∀ (fuel : Nat) (c : CmdRef) (s : SysState),
    (undoCmd fuel c s).commands = s.commands := by
  intro fuel
  induction fuel with
  | zero => intro c s; cases c <;> rfl
  | succ n ih =>
      intro c s
      cases c with
      | mcr id =>
          exact foldl_pres (fun t => t.commands) (fun t c => undoCmd n c t)
            (fun t c => ih c t) _ _
      | lightOn => rfl
      | lightOff => rfl
      | tvOn => rfl
      | tvOff => rfl

theorem undoCmd_undoCommand : ∀ (fuel : Nat) (c : CmdRef) (s : SysState),
    (undoCmd fuel c s).undoCommand = s.undoCommand := by
  intro fuel
  induction fuel with
  | zero => intro c s; cases c <;> rfl
  | succ n ih =>
      intro c s
      cases c with
      | mcr id =>
          exact foldl_pres (fun t => t.undoCommand) (fun t c => undoCmd n c t)
            (fun t c => ih c t) _ _
      | lightOn => rfl
      | lightOff => rfl
      | tvOn => rfl
      | tvOff => rfl

/-! Behaviour of leaf commands and of folds over lists of leaf commands. -/

theorem leaf_exec_output (fuel : Nat) (c : CmdRef) (s : SysState)
    (h : CmdRef.isLeaf c = true) :
    (execCmd fuel c s).output = s.output ++ [execMsg c] := by
  cases c with
  | mcr id => simp [CmdRef.isLeaf] at h
  | lightOn => cases fuel <;> rfl
  | lightOff => cases fuel <;> rfl
  | tvOn => cases fuel <;> rfl
  | tvOff => cases fuel <;> rfl

theorem leaf_undo_output (fuel : Nat) (c : CmdRef) (s : SysState)
    (h : CmdRef.isLeaf c = true) :
    (undoCmd fuel c s).output = s.output ++ [undoMsg c] := by
  cases c with
  | mcr id => simp [CmdRef.isLeaf] at h
  | lightOn => cases fuel <;> rfl
  | lightOff => cases fuel <;> rfl
  | tvOn => cases fuel <;> rfl
  | tvOff => cases fuel <;> rfl

theorem leaf_undo_store (fuel : Nat) (c : CmdRef) (s : SysState)
    (h : CmdRef.isLeaf c = true) :
    (undoCmd fuel c s).store = s.store := by
  cases c with
  | mcr id => simp [CmdRef.isLeaf] at h
  | lightOn => cases fuel <;> rfl
  | lightOff => cases fuel <;> rfl
  | tvOn => cases fuel <;> rfl
  | tvOff => cases fuel <;> rfl

theorem exec_foldl_output (fuel : Nat) :
    ∀ (l : List CmdRef) (s : SysState), (∀ c ∈ l, CmdRef.isLeaf c = true) →
      (l.foldl (fun t c => execCmd fuel c t) s).output = s.output ++ l.map execMsg
  | [], s, _ => by simp
  | c :: l, s, h => by
      rw [List.foldl_cons,
        exec_foldl_output fuel l (execCmd fuel c s)
          (fun d hd => h d (List.mem_cons_of_mem c hd)),
        leaf_exec_output fuel c s (h c (List.mem_cons_self c l))]
      simp

theorem undo_foldl_output (fuel : Nat) :
    ∀ (l : List CmdRef) (s : SysState), (∀ c ∈ l, CmdRef.isLeaf c = true) →
      (l.foldl (fun t c => undoCmd fuel c t) s).output = s.output ++ l.map undoMsg
  | [], s, _ => by simp
  | c :: l, s, h => by
      rw [List.foldl_cons,
        undo_foldl_output fuel l (undoCmd fuel c s)
          (fun d hd => h d (List.mem_cons_of_mem c hd)),
        leaf_undo_output fuel c s (h c (List.mem_cons_self c l))]
      simp

theorem undo_foldl_store (fuel : Nat) :
    ∀ (l : List CmdRef) (s : SysState), (∀ c ∈ l, CmdRef.isLeaf c = true) →
      (l.foldl (fun t c => undoCmd fuel c t) s).store = s.store
  | [], _, _ => rfl
  | c :: l, s, h => by
      rw [List.foldl_cons,
        undo_foldl_store fuel l (undoCmd fuel c s)
          (fun d hd => h d (List.mem_cons_of_mem c hd)),
        leaf_undo_store fuel c s (h c (List.mem_cons_self c l))]

/-! Unfolding helpers for the RemoteControl operations. -/

theorem pressButton_valid (fuel : Nat) (i : Int) (s : SysState) (c : CmdRef)
    (h : elemAt s.commands i = some c) :
    pressButton fuel i s = Except.ok { execCmd fuel c s with undoCommand := some c } := by
  have h0 : 0 ≤ i := by
    by_contra hneg
    rw [elemAt, if_neg hneg] at h
    exact Option.noConfusion h
  have hlt : i.toNat < s.commands.length := by
    rw [elemAt, if_pos h0] at h
    exact get?_lt_length _ _ _ h
  have hg : i < (s.commands.length : Int) := by omega
  unfold pressButton
  rw [if_pos hg, h]

theorem pressButton_notFound (fuel : Nat) (i : Int) (s : SysState)
    (h : (s.commands.length : Int) ≤ i) :
    pressButton fuel i s =
      Except.ok { s with output := s.output ++ ["Command not found"] } := by
  unfold pressButton
  rw [if_neg (by omega)]

theorem pressButton_neg (fuel : Nat) (i : Int) (s : SysState) (h : i < 0) :
    pressButton fuel i s = Except.error JsError.typeError := by
  unfold pressButton
  rw [if_pos (by omega), elemAt, if_neg (by omega)]

theorem pressUndo_some (fuel : Nat) (c : CmdRef) (s : SysState)
    (h : s.undoCommand = some c) :
    pressUndo fuel s = { undoCmd fuel c s with undoCommand := none } := by
  unfold pressUndo
  rw [h]

theorem pressUndo_none (fuel : Nat) (s : SysState) (h : s.undoCommand = none) :
    pressUndo fuel s = { s with output := s.output ++ ["No command to undo"] } := by
  unfold pressUndo
  rw [h]

theorem pressUndo_slot (fuel : Nat) (s : SysState) :
    (pressUndo fuel s).undoCommand = none := by
  unfold pressUndo
  cases h : s.undoCommand with
  | some c => rfl
  | none => rfl

theorem pressUndo_commands (fuel : Nat) (s : SysState) :
    (pressUndo fuel s).commands = s.commands := by
  unfold pressUndo
  cases h : s.undoCommand with
  | some c => exact undoCmd_commands fuel c s
  | none => rfl

theorem pressButton_commands (fuel : Nat) (i : Int) (s t : SysState)
    (h : pressButton fuel i s = Except.ok t) : t.commands = s.commands := by
  unfold pressButton at h
  split at h
  · cases hel : elemAt s.commands i with
    | some c =>
        rw [hel] at h
        injection h with h
        rw [← h]
        exact execCmd_commands fuel c s
    | none =>
        rw [hel] at h
        exact Except.noConfusion h
  · injection h with h
    rw [← h]

theorem runOp_commands (fuel : Nat) (s t : SysState) (op : Op)
    (h : runOp fuel s op = Except.ok t) : t.commands = s.commands := by
  cases op with
  | press i => exact pressButton_commands fuel i s t h
  | undoBtn =>
      injection h with h
      rw [← h]
      exact pressUndo_commands fuel s

theorem runOps_commands (fuel : Nat) :
    ∀ (ops : List Op) (s t : SysState),
      runOps fuel ops s = Except.ok t → t.commands = s.commands
  | [], s, t, h => by injection h with h; rw [h]
  | op :: ops, s, t, h => by
      unfold runOps at h
      cases hr : runOp fuel s op with
      | ok u =>
          rw [hr] at h
          rw [runOps_commands fuel ops u t h, runOp_commands fuel s u op hr]
      | error e =>
          rw [hr] at h
          exact Except.noConfusion h

/-! Counting receiver actions in console output. -/

theorem deviceActions_append (l₁ l₂ : List String) :
    deviceActions (l₁ ++ l₂) = deviceActions l₁ + deviceActions l₂ := by
  simp [deviceActions, List.filter_append]

theorem isDeviceMsg_undoMsg (c : CmdRef) (h : CmdRef.isLeaf c = true) :
    isDeviceMsg (undoMsg c) = true := by
  cases c with
  | mcr id => simp [CmdRef.isLeaf] at h
  | lightOn => decide
  | lightOff => decide
  | tvOn => decide
  | tvOff => decide

/-! The claims. -/

/-- C1 (amended): pressButton with an index at or beyond the number of
registered commands invokes no Command, reports "Command not found" as a
handled result and leaves everything else (in particular the undo slot)
unchanged.  pressButton with a negative index also invokes no Command's
execute, but — because the source guard only checks the upper bound —
reads `this.commands[index]` (undefined) and raises a TypeError instead
of reporting the handled condition. -/
theorem c1_invalid_index (fuel : Nat) (i : Int) (s : SysState) :
    ((s.commands.length : Int) ≤ i →
      pressButton fuel i s =
        Except.ok { s with output := s.output ++ ["Command not found"] })
    ∧ (i < 0 → pressButton fuel i s = Except.error JsError.typeError) :=
  ⟨fun h => pressButton_notFound fuel i s h, fun h => pressButton_neg fuel i s h⟩

/-- C1 counterexample: with one registered command, pressButton(-1)
raises a TypeError (the guard `index < this.commands.length` passes, so
`this.commands[-1].execute()` is attempted on undefined); it does not
report the handled "command not found" condition the claim requires for
every index `< 0`. -/
theorem c1_counterexample :
    pressButton 1 (-1) (setCommand CmdRef.lightOn initState)
      = Except.error JsError.typeError := rfl

/-- C1 witness: concrete instances of both branches of the amended
claim. -/
theorem c1_witness :
    (pressButton 1 2 (setCommand CmdRef.lightOn initState)
      = Except.ok { setCommand CmdRef.lightOn initState with
          output := (setCommand CmdRef.lightOn initState).output ++ ["Command not found"] })
    ∧ pressButton 1 (-3) (setCommand CmdRef.lightOn initState)
      = Except.error JsError.typeError :=
  ⟨(c1_invalid_index 1 2 (setCommand CmdRef.lightOn initState)).1 (by decide),
   (c1_invalid_index 1 (-3) (setCommand CmdRef.lightOn initState)).2 (by decide)⟩

/-- The MacroCommand instance and heap used for claim C2: a macro built
from [LightOnCommand, TVOnCommand]. -/
def c2pair : CmdRef × SysState :=
  mkComposite [CmdRef.lightOn, CmdRef.tvOn] initState

/-- C2 (code bug, evaluated at the failing input): for the macro built
from [LightOnCommand, TVOnCommand], the first undo() prints the member
undos in reverse construction order (TV then Light) but mutates the
stored array to the reversed order, so the SECOND undo() prints Light
then TV — the construction order, not its reverse — contradicting the
claim that every undo() call uses the order cn, ..., c1. -/
theorem c2_eval :
    (undoCmd 2 c2pair.1 c2pair.2).output = ["TV is OFF", "Light is OFF"]
    ∧ (undoCmd 2 c2pair.1 (undoCmd 2 c2pair.1 c2pair.2)).output
        = ["TV is OFF", "Light is OFF", "Light is OFF", "TV is OFF"]
    ∧ (undoCmd 2 c2pair.1 c2pair.2).store = [[CmdRef.tvOn, CmdRef.lightOn]] :=
  ⟨rfl, rfl, rfl⟩

/-- C3: the undo slot follows the state machine with states Empty and
Holding(cmd).  Initial state is Empty; a valid dispatch executes the
indexed command and overwrites the slot with it; pressUndo on
Holding(cmd) runs cmd's undo and clears the slot; pressUndo on Empty
only reports "No command to undo"; after any pressUndo the slot is
Empty, so a second consecutive pressUndo only reports and performs no
receiver action, and when the slot held a leaf command the pair of
pressUndo calls performs exactly one receiver action in total. -/
theorem c3_undo_slot_machine (fuel : Nat) (s : SysState) :
    initState.undoCommand = none
    ∧ (∀ (i : Int) (c : CmdRef), elemAt s.commands i = some c →
        pressButton fuel i s = Except.ok { execCmd fuel c s with undoCommand := some c })
    ∧ (∀ c : CmdRef, s.undoCommand = some c →
        pressUndo fuel s = { undoCmd fuel c s with undoCommand := none })
    ∧ (s.undoCommand = none →
        pressUndo fuel s = { s with output := s.output ++ ["No command to undo"] })
    ∧ (pressUndo fuel s).undoCommand = none
    ∧ pressUndo fuel (pressUndo fuel s)
        = { pressUndo fuel s with
            output := (pressUndo fuel s).output ++ ["No command to undo"] }
    ∧ (∀ c : CmdRef, s.undoCommand = some c → CmdRef.isLeaf c = true →
        deviceActions (pressUndo fuel (pressUndo fuel s)).output
          = deviceActions s.output + 1) := by
  refine ⟨rfl, ?_, ?_, ?_, pressUndo_slot fuel s, ?_, ?_⟩
  · intro i c h
    exact pressButton_valid fuel i s c h
  · intro c h
    exact pressUndo_some fuel c s h
  · intro h
    exact pressUndo_none fuel s h
  · exact pressUndo_none fuel (pressUndo fuel s) (pressUndo_slot fuel s)
  · intro c h hleaf
    rw [pressUndo_none fuel (pressUndo fuel s) (pressUndo_slot fuel s),
      pressUndo_some fuel c s h]
    show deviceActions ((undoCmd fuel c s).output ++ ["No command to undo"])
        = deviceActions s.output + 1
    rw [leaf_undo_output fuel c s hleaf, deviceActions_append, deviceActions_append]
    have h1 : deviceActions [undoMsg c] = 1 := by
      simp [deviceActions, List.filter_cons, isDeviceMsg_undoMsg c hleaf]
    have h2 : deviceActions ["No command to undo"] = 0 := by decide
    omega

/-- Concrete RemoteControl state witnessing claim C3: one command
registered and held in the undo slot. -/
def c3state : SysState :=
  { initState with commands := [CmdRef.lightOn], undoCommand := some CmdRef.lightOn }

/-- C3 witness: the state machine transitions at concrete states. -/
theorem c3_witness :
    pressButton 1 0 c3state
      = Except.ok { execCmd 1 CmdRef.lightOn c3state with undoCommand := some CmdRef.lightOn }
    ∧ pressUndo 1 c3state = { undoCmd 1 CmdRef.lightOn c3state with undoCommand := none }
    ∧ pressUndo 1 initState
      = { initState with output := initState.output ++ ["No command to undo"] }
    ∧ deviceActions (pressUndo 1 (pressUndo 1 c3state)).output
      = deviceActions c3state.output + 1 :=
  ⟨(c3_undo_slot_machine 1 c3state).2.1 0 CmdRef.lightOn rfl,
   (c3_undo_slot_machine 1 c3state).2.2.1 CmdRef.lightOn rfl,
   (c3_undo_slot_machine 1 initState).2.2.2.1 rfl,
   (c3_undo_slot_machine 1 c3state).2.2.2.2.2.2 CmdRef.lightOn rfl rfl⟩

/-- Precondition under which a leaf command's execute changes its
receiver's observable state: the receiver starts in the state that the
command's undo action produces.  False for macro references. -/
def leafInverseState (c : CmdRef) (s : SysState) : Prop :=
  match c with
  | CmdRef.lightOn => s.lightIsOn = false
  | CmdRef.lightOff => s.lightIsOn = true
  | CmdRef.tvOn => s.tvIsOn = false
  | CmdRef.tvOff => s.tvIsOn = true
  | CmdRef.mcr _ => False

/-- C4 (amended): for a valid index holding one of the four leaf
commands, if the command's receiver starts in the command's inverse
state (so that execute actually changes it), then dispatch(i)
immediately followed by undoLast() restores both receivers to their
pre-dispatch observable state.  (As stated over EVERY receiver state the
claim is false — each undo action forces a fixed state — see the
counterexample.) -/
theorem c4_dispatch_undo_restores (fuel : Nat) (i : Int) (s : SysState) (c : CmdRef)
    (hc : elemAt s.commands i = some c) (hpre : leafInverseState c s) :
    pressButton fuel i s = Except.ok { execCmd fuel c s with undoCommand := some c }
    ∧ (pressUndo fuel { execCmd fuel c s with undoCommand := some c }).lightIsOn = s.lightIsOn
    ∧ (pressUndo fuel { execCmd fuel c s with undoCommand := some c }).tvIsOn = s.tvIsOn := by
  refine ⟨pressButton_valid fuel i s c hc, ?_, ?_⟩ <;>
    rw [pressUndo_some fuel c _ rfl] <;>
    cases c <;>
    simp_all [leafInverseState, execCmd, undoCmd, Light_on, Light_off, TV_on, TV_off]

/-- Concrete state refuting claim C4 as stated: the light is already ON
and LightOnCommand is registered at index 0. -/
def c4bad : SysState :=
  { initState with lightIsOn := true, commands := [CmdRef.lightOn] }

/-- C4 counterexample: dispatching LightOnCommand while the light is
already ON and then undoing leaves the light OFF — not its pre-dispatch
state ON — so execute/undo are not true inverses from every receiver
state. -/
theorem c4_counterexample :
    c4bad.lightIsOn = true
    ∧ pressButton 1 0 c4bad
        = Except.ok { execCmd 1 CmdRef.lightOn c4bad with undoCommand := some CmdRef.lightOn }
    ∧ (pressUndo 1 { execCmd 1 CmdRef.lightOn c4bad with
        undoCommand := some CmdRef.lightOn }).lightIsOn = false :=
  ⟨rfl, rfl, rfl⟩

/-- Concrete state witnessing the amended claim C4: light OFF,
LightOnCommand registered at index 0. -/
def c4good : SysState := { initState with commands := [CmdRef.lightOn] }

/-- C4 witness: dispatch then undo from the inverse state restores both
receivers. -/
theorem c4_witness :
    pressButton 1 0 c4good
      = Except.ok { execCmd 1 CmdRef.lightOn c4good with undoCommand := some CmdRef.lightOn }
    ∧ (pressUndo 1 { execCmd 1 CmdRef.lightOn c4good with
        undoCommand := some CmdRef.lightOn }).lightIsOn = c4good.lightIsOn
    ∧ (pressUndo 1 { execCmd 1 CmdRef.lightOn c4good with
        undoCommand := some CmdRef.lightOn }).tvIsOn = c4good.tvIsOn :=
  c4_dispatch_undo_restores 1 0 c4good CmdRef.lightOn rfl rfl

/-- C5 (amended): setCommand appends the given Command to the mapping;
the appended command occupies the index equal to the prior count, so the
n-th registration is assigned index n-1 and indices are sequential from
0; the rest of the state (in particular the undo slot) is untouched.
However setCommand itself returns no value (TS return type void), so the
assigned index is not returned to the caller. -/
theorem c5_register_appends (c : CmdRef) (s : SysState) :
    (setCommand c s).commands = s.commands ++ [c]
    ∧ (setCommand c s).commands.length = s.commands.length + 1
    ∧ elemAt (setCommand c s).commands (s.commands.length : Int) = some c
    ∧ (setCommand c s).undoCommand = s.undoCommand
    ∧ setCommandReturn c s = none := by
  refine ⟨rfl, by simp [setCommand], ?_, rfl, rfl⟩
  unfold elemAt
  rw [if_pos (by omega)]
  have ht : ((s.commands.length : Int)).toNat = s.commands.length := by omega
  rw [ht]
  exact get?_append_sing s.commands c

/-- C5 counterexample: the first registration on a fresh RemoteControl
does not return index 0 — setCommand's TS return type is void, so no
index is ever returned to the caller. -/
theorem c5_counterexample :
    setCommandReturn CmdRef.lightOn initState ≠ some 0 := by
  decide

/-- RemoteControl state after the client code's setup: partyModeOn (store
id 0) and partyModeOff (store id 1) allocated, then the six commands
registered in source order (lightOn, tvOn, lightOff, tvOff, partyModeOn,
partyModeOff at indices 0-5). -/
def demoSetup : SysState :=
  let p1 := mkComposite [CmdRef.lightOn, CmdRef.tvOn] initState
  let p2 := mkComposite [CmdRef.lightOff, CmdRef.tvOff] p1.2
  setCommand p2.1 (setCommand p1.1 (setCommand CmdRef.tvOff
    (setCommand CmdRef.lightOff (setCommand CmdRef.tvOn
      (setCommand CmdRef.lightOn p2.2)))))

/-- The client code's button presses followed by the final undo. -/
def demoOps : List Op :=
  [Op.press 0, Op.press 1, Op.press 2, Op.press 3, Op.press 4, Op.press 5, Op.undoBtn]

/-- Final observable device states (light, TV) of the demo run; none if a
fault was raised. -/
def demoResult : Option (Bool × Bool) :=
  match runOps 4 demoOps demoSetup with
  | Except.ok s => some (s.lightIsOn, s.tvIsOn)
  | Except.error _ => none

/-- C6: running the client scenario — register LightOn, TVOn, LightOff,
TVOff, Macro([LightOn, TVOn]), Macro([LightOff, TVOff]) at indices 0-5
from light OFF and TV OFF, then dispatch 0,1,2,3,4,5 and undo — raises
no fault and leaves the light ON and the TV ON. -/
theorem c6_demo_final_state : demoResult = some (true, true) := rfl

/-- C7: registering the same Command instance twice yields two distinct
indices; both are dispatchable, looking up either index finds that same
instance, dispatching either produces the identical effect and leaves
that instance in the undo slot, and the following pressUndo undoes via
that instance — the same no matter which of the two indices was
pressed. -/
theorem c7_same_instance_twice (fuel : Nat) (c : CmdRef) (s : SysState) :
    (s.commands.length : Int) ≠ (s.commands.length : Int) + 1
    ∧ elemAt (setCommand c (setCommand c s)).commands (s.commands.length : Int) = some c
    ∧ elemAt (setCommand c (setCommand c s)).commands ((s.commands.length : Int) + 1) = some c
    ∧ pressButton fuel (s.commands.length : Int) (setCommand c (setCommand c s))
        = pressButton fuel ((s.commands.length : Int) + 1) (setCommand c (setCommand c s))
    ∧ pressButton fuel (s.commands.length : Int) (setCommand c (setCommand c s))
        = Except.ok { execCmd fuel c (setCommand c (setCommand c s)) with undoCommand := some c }
    ∧ pressUndo fuel { execCmd fuel c (setCommand c (setCommand c s)) with undoCommand := some c }
        = { undoCmd fuel c { execCmd fuel c (setCommand c (setCommand c s))
              with undoCommand := some c } with undoCommand := none } := by
  have h1 : elemAt (setCommand c (setCommand c s)).commands (s.commands.length : Int)
      = some c := by
    unfold elemAt
    rw [if_pos (by omega)]
    have ht : ((s.commands.length : Int)).toNat = s.commands.length := by omega
    rw [ht]
    show ((s.commands ++ [c]) ++ [c]).get? s.commands.length = some c
    rw [List.append_assoc]
    show (s.commands ++ [c, c]).get? s.commands.length = some c
    have ha := get?_append_add s.commands [c, c] 0
    rw [Nat.zero_add] at ha
    rw [ha]
    rfl
  have h2 : elemAt (setCommand c (setCommand c s)).commands ((s.commands.length : Int) + 1)
      = some c := by
    unfold elemAt
    rw [if_pos (by omega)]
    have ht : ((s.commands.length : Int) + 1).toNat = s.commands.length + 1 := by omega
    rw [ht]
    show ((s.commands ++ [c]) ++ [c]).get? (s.commands.length + 1) = some c
    rw [List.append_assoc]
    show (s.commands ++ [c, c]).get? (s.commands.length + 1) = some c
    have ha := get?_append_add s.commands [c, c] 1
    rw [Nat.add_comm 1 s.commands.length] at ha
    rw [ha]
    rfl
  refine ⟨by omega, h1, h2, ?_, pressButton_valid fuel _ _ c h1, ?_⟩
  · rw [pressButton_valid fuel _ _ c h1, pressButton_valid fuel _ _ c h2]
  · exact pressUndo_some fuel c _ rfl

/-- C8: a MacroCommand constructed from the empty sequence is a valid
no-op: both execute() and undo() return the state unchanged (no receiver
action, no output, no fault — the model's only fault source is
pressButton with a negative index). -/
theorem c8_empty_composite_noop (fuel : Nat) (s : SysState) :
    execCmd fuel (mkComposite [] s).1 (mkComposite [] s).2 = (mkComposite [] s).2
    ∧ undoCmd fuel (mkComposite [] s).1 (mkComposite [] s).2 = (mkComposite [] s).2 := by
  cases fuel with
  | zero => exact ⟨rfl, rfl⟩
  | succ n =>
      have hget : (s.store ++ [[]]).get? s.store.length = some ([] : List CmdRef) :=
        get?_append_sing s.store []
      have hrw : ((s.store ++ [[]]).get? s.store.length).getD [] = ([] : List CmdRef) := by
        rw [hget]
        rfl
      constructor
      · show (((s.store ++ [[]]).get? s.store.length).getD []).foldl
            (fun t c => execCmd n c t) (mkComposite [] s).2 = (mkComposite [] s).2
        rw [hrw]
        rfl
      · show ((((s.store ++ [[]]).get? s.store.length).getD []).reverse).foldl
            (fun t c => undoCmd n c t)
            { (mkComposite [] s).2 with
              store := (s.store ++ [[]]).set s.store.length
                ((((s.store ++ [[]]).get? s.store.length).getD []).reverse) }
          = (mkComposite [] s).2
        rw [hrw]
        show { (mkComposite [] s).2 with
            store := (s.store ++ [[]]).set s.store.length [] } = (mkComposite [] s).2
        rw [set_of_get? _ _ _ hget]
        rfl

/-- C9: pressButton (any index, valid, out-of-range or negative) and
pressUndo never modify the registered command list — after any completed
sequence of presses the list is identical to what it was before — and
setCommand changes it only by appending. -/
theorem c9_frame (fuel : Nat) :
    (∀ (ops : List Op) (s t : SysState),
        runOps fuel ops s = Except.ok t → t.commands = s.commands)
    ∧ (∀ (c : CmdRef) (s : SysState), (setCommand c s).commands = s.commands ++ [c]) :=
  ⟨fun ops s t h => runOps_commands fuel ops s t h, fun _ _ => rfl⟩

/-- Concrete state for the C9 witness. -/
def c9state : SysState := { initState with commands := [CmdRef.tvOn] }

/-- Result of a concrete press/undo sequence on c9state. -/
def c9final : SysState :=
  match runOps 1 [Op.press 0, Op.undoBtn] c9state with
  | Except.ok t => t
  | Except.error _ => initState

/-- C9 witness: a concrete press and undo leave the command list
unchanged. -/
theorem c9_witness : c9final.commands = c9state.commands :=
  (c9_frame 1).1 [Op.press 0, Op.undoBtn] c9state c9final rfl

/-- C10: MacroCommand.undo() reverses the stored command sequence in
place: for a macro whose members are leaf commands, undo() sets the
store entry to the reversed list while printing the member undo actions
in reverse order; a subsequent execute() then runs the members in the
order cn, ..., c1; a second consecutive undo() prints the member undo
actions in the order c1, ..., cn — exactly the reverse of the first
undo's order. -/
theorem c10_undo_reverses_in_place (fuel : Nat) (s : SysState) (id : Nat) (l : List CmdRef)
    (hget : s.store.get? id = some l) (hleaf : ∀ c ∈ l, CmdRef.isLeaf c = true) :
    (undoCmd (fuel + 1) (CmdRef.mcr id) s).store = s.store.set id l.reverse
    ∧ (undoCmd (fuel + 1) (CmdRef.mcr id) s).output = s.output ++ l.reverse.map undoMsg
    ∧ (execCmd (fuel + 1) (CmdRef.mcr id) (undoCmd (fuel + 1) (CmdRef.mcr id) s)).output
        = (undoCmd (fuel + 1) (CmdRef.mcr id) s).output ++ l.reverse.map execMsg
    ∧ (undoCmd (fuel + 1) (CmdRef.mcr id) (undoCmd (fuel + 1) (CmdRef.mcr id) s)).output
        = (undoCmd (fuel + 1) (CmdRef.mcr id) s).output ++ l.map undoMsg
    ∧ l.map undoMsg = (l.reverse.map undoMsg).reverse := by
  have hrw : (s.store.get? id).getD [] = l := by
    rw [hget]
    rfl
  have hleafrev : ∀ c ∈ l.reverse, CmdRef.isLeaf c = true := by
    intro c hc
    exact hleaf c (List.mem_reverse.mp hc)
  have hu : undoCmd (fuel + 1) (CmdRef.mcr id) s
      = l.reverse.foldl (fun t c => undoCmd fuel c t)
          { s with store := s.store.set id l.reverse } := by
    show (((s.store.get? id).getD []).reverse).foldl (fun t c => undoCmd fuel c t)
        { s with store := s.store.set id (((s.store.get? id).getD []).reverse) }
      = l.reverse.foldl (fun t c => undoCmd fuel c t)
          { s with store := s.store.set id l.reverse }
    rw [hrw]
  have hstore : (undoCmd (fuel + 1) (CmdRef.mcr id) s).store = s.store.set id l.reverse := by
    rw [hu]
    exact undo_foldl_store fuel l.reverse _ hleafrev
  have houtput : (undoCmd (fuel + 1) (CmdRef.mcr id) s).output
      = s.output ++ l.reverse.map undoMsg := by
    rw [hu]
    exact undo_foldl_output fuel l.reverse _ hleafrev
  have hget2 : (undoCmd (fuel + 1) (CmdRef.mcr id) s).store.get? id = some l.reverse := by
    rw [hstore]
    exact get?_set_self _ _ _ (get?_lt_length _ _ _ hget)
  have hrw2 : ((undoCmd (fuel + 1) (CmdRef.mcr id) s).store.get? id).getD [] = l.reverse := by
    rw [hget2]
    rfl
  have hexec : execCmd (fuel + 1) (CmdRef.mcr id) (undoCmd (fuel + 1) (CmdRef.mcr id) s)
      = l.reverse.foldl (fun t c => execCmd fuel c t)
          (undoCmd (fuel + 1) (CmdRef.mcr id) s) := by
    show (((undoCmd (fuel + 1) (CmdRef.mcr id) s).store.get? id).getD []).foldl
        (fun t c => execCmd fuel c t) (undoCmd (fuel + 1) (CmdRef.mcr id) s)
      = l.reverse.foldl (fun t c => execCmd fuel c t)
          (undoCmd (fuel + 1) (CmdRef.mcr id) s)
    rw [hrw2]
  have hu2 : undoCmd (fuel + 1) (CmdRef.mcr id) (undoCmd (fuel + 1) (CmdRef.mcr id) s)
      = l.foldl (fun t c => undoCmd fuel c t)
          { undoCmd (fuel + 1) (CmdRef.mcr id) s with
            store := (undoCmd (fuel + 1) (CmdRef.mcr id) s).store.set id l } := by
    show ((((undoCmd (fuel + 1) (CmdRef.mcr id) s).store.get? id).getD []).reverse).foldl
        (fun t c => undoCmd fuel c t)
        { undoCmd (fuel + 1) (CmdRef.mcr id) s with
          store := (undoCmd (fuel + 1) (CmdRef.mcr id) s).store.set id
            ((((undoCmd (fuel + 1) (CmdRef.mcr id) s).store.get? id).getD []).reverse) }
      = l.foldl (fun t c => undoCmd fuel c t)
          { undoCmd (fuel + 1) (CmdRef.mcr id) s with
            store := (undoCmd (fuel + 1) (CmdRef.mcr id) s).store.set id l }
    rw [hrw2, List.reverse_reverse]
  refine ⟨hstore, houtput, ?_, ?_, by simp⟩
  · rw [hexec]
    exact exec_foldl_output fuel l.reverse _ hleafrev
  · rw [hu2]
    exact undo_foldl_output fuel l _ hleaf

/-- Concrete heap for the C10 witness: one macro instance holding
[LightOnCommand, TVOnCommand]. -/
def c10state : SysState := { initState with store := [[CmdRef.lightOn, CmdRef.tvOn]] }

/-- C10 witness: the in-place reversal and the resulting invocation
orders on the concrete macro. -/
theorem c10_witness :
    (undoCmd 2 (CmdRef.mcr 0) c10state).store
        = c10state.store.set 0 ([CmdRef.lightOn, CmdRef.tvOn]).reverse
    ∧ (undoCmd 2 (CmdRef.mcr 0) c10state).output
        = c10state.output ++ ([CmdRef.lightOn, CmdRef.tvOn]).reverse.map undoMsg
    ∧ (execCmd 2 (CmdRef.mcr 0) (undoCmd 2 (CmdRef.mcr 0) c10state)).output
        = (undoCmd 2 (CmdRef.mcr 0) c10state).output
            ++ ([CmdRef.lightOn, CmdRef.tvOn]).reverse.map execMsg
    ∧ (undoCmd 2 (CmdRef.mcr 0) (undoCmd 2 (CmdRef.mcr 0) c10state)).output
        = (undoCmd 2 (CmdRef.mcr 0) c10state).output
            ++ ([CmdRef.lightOn, CmdRef.tvOn]).map undoMsg
    ∧ ([CmdRef.lightOn, CmdRef.tvOn]).map undoMsg
        = (([CmdRef.lightOn, CmdRef.tvOn]).reverse.map undoMsg).reverse :=
  c10_undo_reverses_in_place 1 c10state 0 [CmdRef.lightOn, CmdRef.tvOn] rfl (by decide)
